import Mathlib

/-!
Verification of the "code-stink" analyzer (TypeScript sources
src/models/models.ts and src/index.ts) against its specification.

The scoring engine is embedded shallowly:
* JavaScript strings are Lean `String`s; every string primitive the source
  uses (`split`, `trim`, `join`, `startsWith`, `endsWith`, `match` for the
  two fixed regexes) is re-implemented here on `String.data` so that every
  definition is structurally recursive and kernel-evaluable.  Inputs in all
  theorems and witnesses are ASCII, where these models agree with the
  JavaScript (UTF-16 / Unicode-aware) primitives.
* The mutable `stinkLevel` / `issues` fields of the entity classes become an
  explicit `ScoreState` threaded through each check.  `stinkLevel` is a `Nat`
  because every mutation in the source adds a positive integer constant.
* JavaScript numbers used in score arithmetic (the 0.4/0.6 aggregation)
  are modelled as rationals.
-/

namespace Stink

/-- The whitespace class used by JavaScript `\s`, `trim` (ASCII part). -/
def isSpaceJS (c : Char) : Bool :=
  c = ' ' || c = '\t' || c = '\n' || c = '\r' || c = Char.ofNat 11 || c = Char.ofNat 12

/-- Characters matched by the JavaScript regex `.` (no line terminators). -/
def isDotChar (c : Char) : Bool :=
  !(c = '\n' || c = '\r')

/-- `str.split(sep)` for a one-character separator, on char lists:
splits at every occurrence, keeping empty pieces (JavaScript semantics). -/
def splitCharList (sep : Char) : List Char → List (List Char)
  | [] => [[]]
  | c :: tl =>
    if c = sep then
      [] :: splitCharList sep tl
    else
      match splitCharList sep tl with
      | [] => [[c]]
      | p :: ps => (c :: p) :: ps

/-- `code.split("\n")` from `FileClass.checkDuplicateCode` (models.ts:16). -/
def splitLines (s : String) : List String :=
  (splitCharList '\n' s.data).map String.mk

/-- JavaScript `String.prototype.trim` (ASCII whitespace). -/
def jsTrim (s : String) : String :=
  String.mk (((s.data.dropWhile isSpaceJS).reverse.dropWhile isSpaceJS).reverse)

/-- JavaScript `Array.prototype.join("\n")`: empty array gives `""`. -/
def joinNL : List String → String
  | [] => ""
  | x :: xs => xs.foldl (fun a b => a ++ "\n" ++ b) x

/-- `a.startsWith(b)` on char lists. -/
def startsWithStr (s pre : String) : Bool :=
  pre.data.isPrefixOf s.data

/-- `a.endsWith(b)` on char lists. -/
def endsWithStr (s suf : String) : Bool :=
  suf.data.reverse.isPrefixOf s.data.reverse

/-- A single-quote character, used inside issue messages. -/
def sq : String := String.mk [Char.ofNat 39]

/-- Mutable scoring fields shared by `FileClass`, `FunctionClass` and
`VariableClass`: `private stinkLevel: number = 0; private issues: string[] = []`. -/
structure ScoreState where
  stinkLevel : Nat
  issues : List String
  deriving DecidableEq, Repr

/-- Fresh entity state. -/
def initState : ScoreState := ⟨0, []⟩

/-- `max(0, 100 - stinkLevel)`: the clean level computed by every
`getCleanLevel` in models.ts. -/
def cleanScore (stink : Nat) : ℚ :=
  max 0 (100 - (stink : ℚ))

/-! ### FileClass: duplicate-code detection (models.ts lines 15-67) -/

/-- `lines.slice(i, i + 5).join("\n")`: one candidate window of
`MIN_DUPLICATE_LENGTH = 5` lines. -/
def window (lines : List String) (i : Nat) : String :=
  joinNL ((lines.drop i).take 5)

/-- The issue pushed at models.ts:40-44, with both 1-indexed line ranges. -/
def dupMsg (i j : Nat) : String :=
  "Duplicate code block found at lines " ++ toString (i + 1) ++ "-" ++
    toString (i + 5) ++ " and " ++ toString (j + 1) ++ "-" ++ toString (j + 5)

/-- The inner loop of `checkDuplicateCode`: scan `j = start, start+1, ...`
while `j <= lines.length - 5`, returning the first `j` whose window equals
`block` (the `break` at models.ts:45). -/
def innerFind (lines : List String) (block : String) : Nat → Nat → Option Nat
  | _, 0 => none
  | j, fuel + 1 =>
    if j + 5 ≤ lines.length then
      if window lines j = block then some j
      else innerFind lines block (j + 1) fuel
    else none

/-- `duplicates.add(block)` on the local `Set<string>`. -/
def insertDup (block : String) (dups : List String) : List String :=
  if block ∈ dups then dups else dups ++ [block]

/-- The outer loop of `checkDuplicateCode` (models.ts:20-48): for each start
index `i` with `i <= lines.length - 5`, skip windows whose trimmed text is
shorter than 20 characters, otherwise scan for a later identical window,
recording the duplicate, adding `DUPLICATE_CODE_DEDUCTION = 15` and pushing
the issue on the first hit. -/
def outerLoop (lines : List String) :
    Nat → Nat → ScoreState → List String → ScoreState × List String
  | _, 0, st, dups => (st, dups)
  | i, fuel + 1, st, dups =>
    if i + 5 ≤ lines.length then
      let block := window lines i
      if (jsTrim block).length < 20 then
        outerLoop lines (i + 1) fuel st dups
      else
        match innerFind lines block (i + 5) lines.length with
        | some j =>
          outerLoop lines (i + 1) fuel
            ⟨st.stinkLevel + 15, st.issues ++ [dupMsg i j]⟩
            (insertDup block dups)
        | none => outerLoop lines (i + 1) fuel st dups
    else (st, dups)

/-- `FileClass.checkDuplicateCode` (models.ts:15-51): returns whether any
duplicate block was found and the mutated scoring state. -/
def checkDuplicateCode (code : String) (st : ScoreState) : Bool × ScoreState :=
  let lines := splitLines code
  let r := outerLoop lines 0 (lines.length + 1) st []
  (!r.2.isEmpty, r.1)

/-- `FileClass.getCleanLevel` (models.ts:58-67): runs `checkDuplicateCode`
(mutating the state again on every call) and returns
`max(0, 100 - stinkLevel)` together with the mutated state. -/
def fileGetCleanLevel (code : String) (st : ScoreState) : ℚ × ScoreState :=
  let r := checkDuplicateCode code st
  (cleanScore r.2.stinkLevel, r.2)

/-! ### FunctionClass: parameter counting (models.ts lines 186-203) -/

/-- The first match of the regex `/\(([^)]*)\)/`: the capture group is the
text strictly between the first `(` of the string and the first `)` after
it; there is no match when no `(` is followed by a later `)`. -/
def firstParenGroup (s : String) : Option String :=
  match s.data.dropWhile (fun c => c ≠ '(') with
  | [] => none
  | _ :: rest =>
    if rest.any (fun c => c = ')') then
      some (String.mk (rest.takeWhile (fun c => c ≠ ')')))
    else none

/-- Issue pushed at models.ts:199-201. -/
def paramMsg (name : String) (n : Nat) : String :=
  "Function " ++ name ++ " has " ++ toString n ++
    " parameters (maximum recommended: 3)"

/-- `FunctionClass.checkNumberOfParameters` (models.ts:186-203):
`MAX_PARAMETERS = 3`, `MAX_PARAMETERS_VIOLATION_DEDUCTION = 5`; an absent
`(...)` pair is a no-op, an empty trimmed parameter list counts as zero
parameters, otherwise the count is `paramText.split(",").length`. -/
def checkNumberOfParameters (name functionCode : String) (st : ScoreState) :
    ScoreState :=
  match firstParenGroup functionCode with
  | none => st
  | some grp =>
    let paramText := jsTrim grp
    let parameters :=
      if paramText = "" then 0 else (splitCharList ',' paramText.data).length
    if parameters > 3 then
      ⟨st.stinkLevel + (parameters - 3) * 5,
        st.issues ++ [paramMsg name parameters]⟩
    else st

/-! ### FunctionClass: condition encapsulation (models.ts lines 348-360)

The source counts the matches of `/if\s*\(\s*.+&&.+\|\|.+.+\)/g`.  The
matcher below is that regex specialized: a match at a position needs the
literal `if`, the (forced maximal) whitespace run, a literal `(`, then a
backtracking choice of how much whitespace `\s*` consumes, after which the
greedy `.+&&.+\|\|.+.+\)` tail selects, inside the line-terminator-free
region, the last `)` preceded (with the mandatory one-character gaps) by a
`||` which is itself preceded by a `&&` at distance at least 3.  The `g`
flag resumes scanning after each match end. -/

/-- Last index `r ≤ bound` (counting from `idx`) at which `pat` occurs in `l`. -/
def lastOccAux (pat : List Char) : List Char → Nat → Nat → Option Nat → Option Nat
  | [], _, _, acc => acc
  | l@(_ :: tl), idx, bound, acc =>
    let acc' := if idx ≤ bound then (if pat.isPrefixOf l then some idx else acc) else acc
    lastOccAux pat tl (idx + 1) bound acc'

/-- Last index `≤ bound` at which `pat` occurs in `l`. -/
def lastOccLe (pat l : List Char) (bound : Nat) : Option Nat :=
  lastOccAux pat l 0 bound none

/-- First index `≥ start` at which `pat` occurs in `l`. -/
def firstOccAux (pat : List Char) : List Char → Nat → Nat → Option Nat
  | [], _, _ => none
  | l@(_ :: tl), idx, start =>
    if start ≤ idx && pat.isPrefixOf l then some idx
    else firstOccAux pat tl (idx + 1) start

/-- First index `≥ start` at which `pat` occurs in `l`. -/
def firstOccFrom (pat l : List Char) (start : Nat) : Option Nat :=
  firstOccAux pat l 0 start

/-- The greedy choice of `.+&&.+\|\|.+.+\)` inside the line-terminator-free
region `L`: the last `)` overall, the last `||` leaving room for the two
`.+` before the `)`, and the first `&&` at index at least 1 (the first `.+`),
which must sit at least 3 before the `||` (the second `.+`). -/
def greedyTail (L : List Char) : Option Nat :=
  match lastOccLe [')'] L L.length with
  | none => none
  | some k =>
    match lastOccLe ['|', '|'] L (k - 4) with
    | none => none
    | some j =>
      match firstOccFrom ['&', '&'] L 1 with
      | none => none
      | some i => if i + 3 ≤ j then some k else none

/-- Attempt the tail `.+&&.+\|\|.+.+\)` after `\s*` consumed exactly `w`
characters of `u`; returns the consumed length of `u` on success. -/
def tryMatchW (u : List Char) (w : Nat) : Option Nat :=
  match greedyTail ((u.drop w).takeWhile isDotChar) with
  | none => none
  | some k => some (w + k + 1)

/-- Backtrack `\s*` from the maximal whitespace run down to zero. -/
def matchTail (u : List Char) : Nat → Option Nat
  | 0 => tryMatchW u 0
  | w + 1 =>
    match tryMatchW u (w + 1) with
    | some r => some r
    | none => matchTail u w

/-- After the literal `if`: the (forced maximal) whitespace run must be
followed by a literal `(`, then the backtracked tail decides the match. -/
def matchAfterIf (cs1 : List Char) : Option Nat :=
  match cs1.drop ((cs1.takeWhile isSpaceJS).length) with
  | '(' :: u =>
    match matchTail u ((u.takeWhile isSpaceJS).length) with
    | some r => some (2 + (cs1.takeWhile isSpaceJS).length + 1 + r)
    | none => none
  | _ => none

/-- Whether `/if\s*\(\s*.+&&.+\|\|.+.+\)/` matches at the head of `cs`,
and the length of the (greedy) match. -/
def matchHere (cs : List Char) : Option Nat :=
  match cs with
  | 'i' :: 'f' :: cs1 => matchAfterIf cs1
  | _ => none

/-- Number of (non-overlapping, left-to-right) matches of the regex:
`functionCode.match(...).length` under the `g` flag. -/
def countMatchesAux : Nat → List Char → Nat
  | 0, _ => 0
  | _ + 1, [] => 0
  | fuel + 1, cs@(_ :: tl) =>
    match matchHere cs with
    | some len => 1 + countMatchesAux fuel (cs.drop len)
    | none => countMatchesAux fuel tl

/-- Count of regex matches in a function text. -/
def countMatches (s : String) : Nat :=
  countMatchesAux s.data.length s.data

/-- Issue pushed at models.ts:356-358. -/
def condMsg (name : String) (n : Nat) : String :=
  "Function " ++ name ++ " has " ++ toString n ++
    " complex conditions that should be encapsulated"

/-- `FunctionClass.checkConditionEncapsulation` (models.ts:348-360):
`UNENCAPSULATED_CONDITION_DEDUCTION = 5` per match. -/
def checkConditionEncapsulation (name functionCode : String)
    (st : ScoreState) : ScoreState :=
  let n := countMatches functionCode
  if n > 0 then
    ⟨st.stinkLevel + n * 5, st.issues ++ [condMsg name n]⟩
  else st

/-- `FunctionClass.getCleanLevel` (models.ts:152-163): recalculates only
when both accumulators are empty.  `recalc` abstracts
`calculateStinkLevel`, which chains all ten rule checks (two of them walk
the TypeScript syntax tree); every check only adds `Nat` penalties, which
is all the bounds claims need. -/
def functionGetCleanLevel (recalc : ScoreState → ScoreState)
    (st : ScoreState) : ℚ × ScoreState :=
  let st' := if st.stinkLevel = 0 ∧ st.issues = [] then recalc st else st
  (cleanScore st'.stinkLevel, st')

/-! ### VariableClass (models.ts lines 434-577) -/

/-- The dynamically-typed `value: any` held by a `VariableClass`, as the
closed tagged union of the shapes `checkTypeConsistency` distinguishes. -/
inductive JsValue where
  | vstr (s : String)
  | vnum (q : ℚ)
  | vbool (b : Bool)
  | vfun
  | varr
  | vmap
  | vset
  | vobj
  | vnull
  | vundef
  deriving DecidableEq, Repr

/-- The `actualType` computed at models.ts:510-523: note the `"string"`
default, which `null` and `undefined` fall through to. -/
def actualTypeOf : JsValue → String
  | .vstr _ => "string"
  | .vnum _ => "number"
  | .vbool _ => "boolean"
  | .vfun => "function"
  | .varr => "array"
  | .vmap => "map"
  | .vset => "set"
  | .vobj => "object"
  | .vnull => "string"
  | .vundef => "string"

/-- `VARIABLE_TYPE_MARKERS` (models.ts:439-451) in `Object.entries`
(insertion) order. -/
def typeMarkers : List (String × String) :=
  [("is", "boolean"), ("has", "boolean"), ("count", "number"),
   ("index", "number"), ("num", "number"), ("str", "string"),
   ("arr", "array"), ("obj", "object"), ("map", "map"),
   ("set", "set"), ("fn", "function")]

/-- Issue pushed at models.ts:528-530. -/
def mismatchMsg (name expected actual : String) : String :=
  "Variable " ++ sq ++ name ++ sq ++ " implies type " ++ sq ++ expected ++
    sq ++ " but contains a value of type " ++ sq ++ actual ++ sq

/-- The marker scan of `checkTypeConsistency` (models.ts:503-534): the first
marker that is a proper prefix or suffix of the name and whose expected type
differs from the actual type adds `TYPE_MISMATCH_DEDUCTION = 15`, pushes the
issue and returns `false`; matching markers whose types agree continue. -/
def typeLoop (name actual : String) :
    List (String × String) → ScoreState → Bool × ScoreState
  | [], st => (true, st)
  | (marker, expected) :: rest, st =>
    if (startsWithStr name marker && decide (marker.length < name.length)) ||
        (endsWithStr name marker && decide (marker.length < name.length)) then
      if actual ≠ expected then
        (false, ⟨st.stinkLevel + 15,
          st.issues ++ [mismatchMsg name expected actual]⟩)
      else typeLoop name actual rest st
    else typeLoop name actual rest st

/-- `VariableClass.checkTypeConsistency` (models.ts:501-537). -/
def checkTypeConsistency (name : String) (value : JsValue)
    (st : ScoreState) : Bool × ScoreState :=
  typeLoop name (actualTypeOf value) typeMarkers st

/-- `^[a-z][a-zA-Z0-9]*$` (models.ts:486). -/
def isCamelCaseName (s : String) : Bool :=
  match s.data with
  | [] => false
  | c :: tl =>
    ('a' ≤ c && c ≤ 'z') &&
      tl.all (fun d =>
        ('a' ≤ d && d ≤ 'z') || ('A' ≤ d && d ≤ 'Z') || ('0' ≤ d && d ≤ '9'))

/-- `VariableClass.checkDescriptiveName` (models.ts:463-494), with
`DESCRIPTIVE_NAME_VIOLATION_DEDUCTION = 10`.  The single-letter branch is
kept although the length-below-2 branch already returned on those names. -/
def checkDescriptiveName (name : String) (st : ScoreState) :
    Bool × ScoreState :=
  if name.length < 2 then
    (false, ⟨st.stinkLevel + 10,
      st.issues ++ ["Variable " ++ sq ++ name ++ sq ++
        " is too short to be descriptive"]⟩)
  else if name.length = 1 && !(["i", "j", "k", "x", "y", "z"].contains name) then
    (false, ⟨st.stinkLevel + 10,
      st.issues ++ ["Variable " ++ sq ++ name ++ sq ++
        " uses non-standard single letter naming"]⟩)
  else if !isCamelCaseName name then
    (false, ⟨st.stinkLevel + 10,
      st.issues ++ ["Variable " ++ sq ++ name ++ sq ++
        " should use camelCase naming"]⟩)
  else (true, st)

/-- `VariableClass.getStinkLevel` (models.ts:543-551): runs the two checks
only while the accumulated level is zero. -/
def variableGetStinkLevel (name : String) (value : JsValue)
    (st : ScoreState) : Nat × ScoreState :=
  if st.stinkLevel = 0 then
    let st1 := (checkDescriptiveName name st).2
    let st2 := (checkTypeConsistency name value st1).2
    (st2.stinkLevel, st2)
  else (st.stinkLevel, st)

/-- `VariableClass.getCleanLevel` (models.ts:565-576). -/
def variableGetCleanLevel (name : String) (value : JsValue)
    (st : ScoreState) : ℚ × ScoreState :=
  let st' := if st.stinkLevel = 0 then (variableGetStinkLevel name value st).2
             else st
  (cleanScore st'.stinkLevel, st')

/-! ### Analyzer extraction and aggregation (src/index.ts) -/

/-- The value bound to every extracted `VariableClass`
(index.ts:365-369): the source text of the declaration initializer, or the
empty string when there is none — always a JavaScript string. -/
def extractedValue (initializerText : Option String) : JsValue :=
  .vstr (initializerText.getD "")

/-- The function-average term of `analyzeFile` (index.ts:331-336): the mean
of the function clean levels, or 100 for a file with no functions. -/
def avgFunctionCleanLevel (funcLevels : List ℚ) : ℚ :=
  if funcLevels.length > 0 then funcLevels.sum / funcLevels.length else 100

/-- The tail of `CodeQualityAnalyzer.analyzeFile` (index.ts:327-346): runs
`checkDuplicateCode` on the fresh `FileClass`, reads `getCleanLevel` (which
runs the duplicate check a second time on the already-mutated state), and
combines `fileCleanLevel * 0.4 + avgFunctionCleanLevel * 0.6`. -/
def analyzeFileOverall (code : String) (funcLevels : List ℚ) : ℚ :=
  let st1 := (checkDuplicateCode code initState).2
  let fileCleanLevel := (fileGetCleanLevel code st1).1
  fileCleanLevel * (0.4 : ℚ) + avgFunctionCleanLevel funcLevels * (0.6 : ℚ)

/-- The file-level clean score of one scoring pass on a fresh file entity —
the `fileDuplicateScore` of the specification (§4.2/§4.3: one duplicate
detection run from a clean accumulator, then `max(0, 100 - stinkLevel)`). -/
def fileDuplicateScore (code : String) : ℚ :=
  (fileGetCleanLevel code initState).1

/-! ### Definitions taken from the specification's wording (for claims that
compare the code against the spec's phrasing) -/

/-- Modelled from the spec: "a conditional guard combines both conjunction
and disjunction operators in one expression" — the text of the guard (from
the first `(` after the first `if` up to the last `)` after it) contains
both `&&` and `||`, in either order. -/
def specGuardCombinesBoth (s : String) : Bool :=
  match firstOccFrom ['i', 'f'] s.data 0 with
  | none => false
  | some p =>
    let afterIf := s.data.drop (p + 2)
    match afterIf.dropWhile (fun c => c ≠ '(') with
    | [] => false
    | _ :: inside =>
      match lastOccLe [')'] inside inside.length with
      | none => false
      | some k =>
        let guard := inside.take k
        (firstOccFrom ['&', '&'] guard 0).isSome &&
          (firstOccFrom ['|', '|'] guard 0).isSome

/-! ### Concrete inputs used by the failing-input evaluations -/

/-- A file text consisting of a 5-line block (29 trimmed characters),
one unrelated separator line, and the identical block again. -/
def dupCode : String :=
  "aaaa1\naaaa2\naaaa3\naaaa4\naaaa5\nzz\naaaa1\naaaa2\naaaa3\naaaa4\naaaa5"

/-- A one-line file: no candidate duplicate window at all. -/
def cleanCode : String := "x"

/-! ## Helper lemmas -/

theorem cleanScore_nonneg (n : Nat) : 0 ≤ cleanScore n := le_max_left _ _

theorem cleanScore_le_100 (n : Nat) : cleanScore n ≤ 100 := by
  unfold cleanScore
  apply max_le
  · norm_num
  · have : (0 : ℚ) ≤ (n : ℚ) := Nat.cast_nonneg n
    linarith

/-- The marker scan either leaves the state alone or performs exactly one
15-point deduction together with exactly one issue. -/
theorem typeLoop_cases (name actual : String) :
    ∀ (ms : List (String × String)) (st : ScoreState),
      (typeLoop name actual ms st).2 = st ∨
      ∃ expected, (typeLoop name actual ms st).2 =
        ⟨st.stinkLevel + 15, st.issues ++ [mismatchMsg name expected actual]⟩
  | [], st => Or.inl rfl
  | (marker, expected) :: rest, st => by
    simp only [typeLoop]
    split
    · split
      · exact Or.inr ⟨expected, rfl⟩
      · exact typeLoop_cases name actual rest st
    · exact typeLoop_cases name actual rest st

/-- `innerFind` returns the first later window equal to the block. -/
theorem innerFind_finds (lines : List String) (block : String) (target : Nat)
    (hwin : window lines target = block) (hlen : target + 5 ≤ lines.length) :
    ∀ (fuel j : Nat), j ≤ target → target - j < fuel →
      (∀ j', j ≤ j' → j' < target → window lines j' ≠ block) →
      innerFind lines block j fuel = some target
  | 0, j, _, hfuel, _ => absurd hfuel (by omega)
  | fuel + 1, j, hj, hfuel, hne => by
    rw [innerFind]
    rcases Nat.lt_or_ge j target with hlt | hge
    · have h5 : j + 5 ≤ lines.length := by omega
      rw [if_pos h5, if_neg (hne j le_rfl hlt)]
      exact innerFind_finds lines block target hwin hlen fuel (j + 1)
        (by omega) (by omega) (fun j' h1 h2 => hne j' (by omega) h2)
    · have hj' : j = target := by omega
      subst hj'
      rw [if_pos hlen, if_pos hwin]

/-- The outer duplicate loop only ever appends to the issue list. -/
theorem outerLoop_mem_issues (lines : List String) :
    ∀ (fuel i : Nat) (st : ScoreState) (dups : List String) (msg : String),
      msg ∈ st.issues → msg ∈ (outerLoop lines i fuel st dups).1.issues
  | 0, _, _, _, _, h => h
  | fuel + 1, i, st, dups, msg, h => by
    simp only [outerLoop]
    split
    · split
      · exact outerLoop_mem_issues lines fuel (i + 1) st dups msg h
      · split
        · exact outerLoop_mem_issues lines fuel (i + 1) _ _ msg
            (List.mem_append_left _ h)
        · exact outerLoop_mem_issues lines fuel (i + 1) st dups msg h
    · exact h

/-- The outer duplicate loop only ever grows the duplicate set. -/
theorem outerLoop_mem_dups (lines : List String) :
    ∀ (fuel i : Nat) (st : ScoreState) (dups : List String) (b : String),
      b ∈ dups → b ∈ (outerLoop lines i fuel st dups).2
  | 0, _, _, _, _, h => h
  | fuel + 1, i, st, dups, b, h => by
    simp only [outerLoop]
    split
    · split
      · exact outerLoop_mem_dups lines fuel (i + 1) st dups b h
      · split
        · refine outerLoop_mem_dups lines fuel (i + 1) _ _ b ?_
          unfold insertDup
          split
          · exact h
          · exact List.mem_append_left _ h
        · exact outerLoop_mem_dups lines fuel (i + 1) st dups b h
    · exact h

theorem insertDup_self (b : String) (dups : List String) :
    b ∈ insertDup b dups := by
  unfold insertDup
  split
  · assumption
  · exact List.mem_append_right _ (List.mem_singleton.mpr rfl)

/-- Prefixes stay prefixes after dropping the same number of elements. -/
theorem prefixDropMono {l v : List Char} (h : l <+: v) (n : Nat) :
    l.drop n <+: v.drop n := by
  obtain ⟨t, rfl⟩ := h
  rw [List.drop_append_eq_append_drop]
  exact List.prefix_append _ _

/-- A successful `lastOccAux` scan really found the pattern, within bound. -/
theorem lastOccAux_spec (pat : List Char) :
    ∀ (l : List Char) (idx bound : Nat) (acc : Option Nat) (r : Nat),
      lastOccAux pat l idx bound acc = some r →
      acc = some r ∨ (idx ≤ r ∧ r ≤ bound ∧ pat <+: l.drop (r - idx))
  | [], _, _, _, _, h => Or.inl h
  | _ :: tl, idx, bound, acc, r, h => by
    rw [lastOccAux] at h
    rcases lastOccAux_spec pat tl (idx + 1) bound _ r h with hacc | ⟨h1, h2, h3⟩
    · split at hacc
      · split at hacc
        · right
          rename_i hb hp
          obtain rfl : idx = r := Option.some.inj hacc
          refine ⟨le_rfl, hb, ?_⟩
          simpa using List.isPrefixOf_iff_prefix.mp hp
        · exact Or.inl hacc
      · exact Or.inl hacc
    · right
      refine ⟨by omega, h2, ?_⟩
      have he : r - idx = (r - (idx + 1)) + 1 := by omega
      rw [he]
      simpa using h3

theorem lastOccLe_spec {pat l : List Char} {bound r : Nat}
    (h : lastOccLe pat l bound = some r) :
    r ≤ bound ∧ pat <+: l.drop r := by
  rcases lastOccAux_spec pat l 0 bound none r h with hacc | ⟨_, h2, h3⟩
  · cases hacc
  · exact ⟨h2, by simpa using h3⟩

/-- A successful `firstOccAux` scan really found the pattern, from start. -/
theorem firstOccAux_spec (pat : List Char) :
    ∀ (l : List Char) (idx start r : Nat),
      firstOccAux pat l idx start = some r →
      idx ≤ r ∧ start ≤ r ∧ pat <+: l.drop (r - idx)
  | [], _, _, _, h => by cases h
  | _ :: tl, idx, start, r, h => by
    rw [firstOccAux] at h
    split at h
    · rename_i hc
      obtain rfl : idx = r := Option.some.inj h
      rw [Bool.and_eq_true] at hc
      refine ⟨le_rfl, by simpa using hc.1, ?_⟩
      simpa using List.isPrefixOf_iff_prefix.mp hc.2
    · obtain ⟨h1, h2, h3⟩ := firstOccAux_spec pat tl (idx + 1) start r h
      refine ⟨by omega, h2, ?_⟩
      have he : r - idx = (r - (idx + 1)) + 1 := by omega
      rw [he]
      simpa using h3

theorem firstOccFrom_spec {pat l : List Char} {start r : Nat}
    (h : firstOccFrom pat l start = some r) :
    start ≤ r ∧ pat <+: l.drop r := by
  obtain ⟨_, h2, h3⟩ := firstOccAux_spec pat l 0 start r h
  exact ⟨h2, by simpa using h3⟩

/-- A successful greedy tail yields a `&&` at least 3 before a `||`. -/
theorem greedyTail_sound {L : List Char} {k : Nat}
    (h : greedyTail L = some k) :
    ∃ i j, i + 3 ≤ j ∧ ['&', '&'] <+: L.drop i ∧ ['|', '|'] <+: L.drop j := by
  unfold greedyTail at h
  split at h
  · cases h
  · rename_i k' hk'
    split at h
    · cases h
    · rename_i j hj
      split at h
      · cases h
      · rename_i i hi
        split at h
        · rename_i hij
          exact ⟨i, j, hij, (firstOccFrom_spec hi).2, (lastOccLe_spec hj).2⟩
        · cases h

theorem tryMatchW_sound {u : List Char} {w r : Nat}
    (h : tryMatchW u w = some r) :
    ∃ i j, i + 3 ≤ j ∧ ['&', '&'] <+: u.drop (w + i) ∧
      ['|', '|'] <+: u.drop (w + j) := by
  unfold tryMatchW at h
  split at h
  · cases h
  · rename_i k hk
    obtain ⟨i, j, hij, h1, h2⟩ := greedyTail_sound hk
    have htw : (u.drop w).takeWhile isDotChar <+: u.drop w :=
      List.takeWhile_prefix isDotChar
    refine ⟨i, j, hij, ?_, ?_⟩
    · have := h1.trans (prefixDropMono htw i)
      rwa [List.drop_drop] at this
    · have := h2.trans (prefixDropMono htw j)
      rwa [List.drop_drop] at this

theorem matchTail_sound {u : List Char} :
    ∀ {w r : Nat}, matchTail u w = some r →
      ∃ w' i j, i + 3 ≤ j ∧ ['&', '&'] <+: u.drop (w' + i) ∧
        ['|', '|'] <+: u.drop (w' + j)
  | 0, _, h => by
    rw [matchTail] at h
    obtain ⟨i, j, hij, h1, h2⟩ := tryMatchW_sound h
    exact ⟨0, i, j, hij, h1, h2⟩
  | w + 1, _, h => by
    rw [matchTail] at h
    split at h
    · rename_i hw
      obtain ⟨i, j, hij, h1, h2⟩ := tryMatchW_sound hw
      exact ⟨w + 1, i, j, hij, h1, h2⟩
    · exact matchTail_sound h

theorem matchAfterIf_sound {cs1 : List Char} {len : Nat}
    (h : matchAfterIf cs1 = some len) :
    ∃ i j, i + 3 ≤ j ∧ ['&', '&'] <+: cs1.drop i ∧
      ['|', '|'] <+: cs1.drop j := by
  unfold matchAfterIf at h
  split at h
  case h_2 => cases h
  rename_i u hu
  split at h
  case h_2 => cases h
  rename_i r hr
  obtain ⟨w, i, j, hij, h1, h2⟩ := matchTail_sound hr
  have hstep : ∀ m : Nat,
      u.drop m = cs1.drop (1 + (cs1.takeWhile isSpaceJS).length + m) := by
    intro m
    have hd : cs1.drop ((cs1.takeWhile isSpaceJS).length + (m + 1)) =
        u.drop m := by
      rw [← List.drop_drop, hu]
      simp
    rw [← hd]
    congr 1
    omega
  refine ⟨1 + (cs1.takeWhile isSpaceJS).length + (w + i),
          1 + (cs1.takeWhile isSpaceJS).length + (w + j), by omega, ?_, ?_⟩
  · rw [← hstep]; exact h1
  · rw [← hstep]; exact h2

/-- A regex match contains a `&&` that is followed, at distance at least 3,
by a `||`. -/
theorem matchHere_sound {cs : List Char} {len : Nat}
    (h : matchHere cs = some len) :
    ∃ i j, i + 3 ≤ j ∧ ['&', '&'] <+: cs.drop i ∧ ['|', '|'] <+: cs.drop j := by
  unfold matchHere at h
  split at h
  · obtain ⟨i, j, hij, h1, h2⟩ := matchAfterIf_sound h
    exact ⟨i + 2, j + 2, by omega, h1, h2⟩
  · cases h

theorem countMatchesAux_sound :
    ∀ (fuel : Nat) (cs : List Char), 0 < countMatchesAux fuel cs →
      ∃ p len, matchHere (cs.drop p) = some len
  | 0, cs, h => by simp [countMatchesAux] at h
  | fuel + 1, [], h => by simp [countMatchesAux] at h
  | fuel + 1, c :: tl, h => by
    rw [countMatchesAux] at h
    split at h
    · rename_i len hm
      exact ⟨0, len, by simpa using hm⟩
    · obtain ⟨p, len, hp⟩ := countMatchesAux_sound fuel tl h
      exact ⟨p + 1, len, by simpa using hp⟩

/-! ## Claim theorems -/

/-- C1: the claim asserts that calling the score computation
(`getCleanLevel`) twice on an unmutated entity yields identical score and
identical issue list.  `FileClass.getCleanLevel` re-runs
`checkDuplicateCode` on every call, so on `dupCode` (one duplicated 5-line
block) the first call returns 85 with one issue and the second call on the
same object returns 70 with the issue duplicated: the code violates the
specified idempotence. -/
theorem fileClass_getCleanLevel_not_idempotent :
    (fileGetCleanLevel dupCode initState).1 = 85 ∧
    (fileGetCleanLevel dupCode (fileGetCleanLevel dupCode initState).2).1 = 70 ∧
    (fileGetCleanLevel dupCode initState).2.issues.length = 1 ∧
    (fileGetCleanLevel dupCode
      (fileGetCleanLevel dupCode initState).2).2.issues.length = 2 := by
  have h1 : checkDuplicateCode dupCode ⟨0, []⟩ =
      (true, ⟨15, [dupMsg 0 6]⟩) := by decide
  have h2 : checkDuplicateCode dupCode (⟨15, [dupMsg 0 6]⟩ : ScoreState) =
      (true, ⟨30, [dupMsg 0 6, dupMsg 0 6]⟩) := by decide
  refine ⟨?_, ?_, ?_, ?_⟩ <;>
    simp [fileGetCleanLevel, initState, h1, h2, cleanScore] <;> norm_num

/-- C2: a file built from a 5-line block `B` (at least 20 trimmed joined
characters), at least one separator line none of whose windows reproduces
`B`'s window, and an identical copy of `B`, makes `checkDuplicateCode`
return `true` and append the issue naming the 1-indexed ranges `1-5` and
`(s+6)-(s+10)` of the two occurrences (`s` separator lines). -/
theorem checkDuplicateCode_roundTrip
    (B seps : List String) (code : String) (st : ScoreState)
    (hB : B.length = 5) (hs : seps ≠ [])
    (hsplit : splitLines code = B ++ (seps ++ B))
    (htrim : 20 ≤ (jsTrim (joinNL B)).length)
    (hsep : ∀ j, 5 ≤ j → j < 5 + seps.length →
      window (B ++ (seps ++ B)) j ≠ window (B ++ (seps ++ B)) 0) :
    (checkDuplicateCode code st).1 = true ∧
    dupMsg 0 (5 + seps.length) ∈ (checkDuplicateCode code st).2.issues := by
  set lines := B ++ (seps ++ B) with hlines
  have hn : lines.length = 10 + seps.length := by
    simp [hlines, hB]; omega
  have hw0 : window lines 0 = joinNL B := by
    unfold window
    rw [List.drop_zero, List.take_left' hB]
  have hwt : window lines (5 + seps.length) = joinNL B := by
    unfold window
    have hassoc : lines = (B ++ seps) ++ B := by
      rw [hlines, List.append_assoc]
    have hlen2 : (B ++ seps).length = 5 + seps.length := by simp [hB]
    rw [hassoc, List.drop_left' hlen2]
    congr 1
    rw [← hB, List.take_length]
  have hfind : innerFind lines (window lines 0) 5 lines.length =
      some (5 + seps.length) := by
    apply innerFind_finds lines (window lines 0) (5 + seps.length)
      (by rw [hwt, hw0]) (by omega) lines.length 5 (by omega)
      (by have := List.length_pos.mpr hs; omega)
    intro j' hj1 hj2
    exact hsep j' hj1 hj2
  have hst : checkDuplicateCode code st =
      (!(outerLoop lines 0 (lines.length + 1) st []).2.isEmpty,
        (outerLoop lines 0 (lines.length + 1) st []).1) := by
    unfold checkDuplicateCode
    rw [hsplit]
  rw [hst]
  have hstep : outerLoop lines 0 (lines.length + 1) st [] =
      outerLoop lines 1 lines.length
        ⟨st.stinkLevel + 15, st.issues ++ [dupMsg 0 (5 + seps.length)]⟩
        (insertDup (window lines 0) []) := by
    conv_lhs => rw [hn]
    rw [outerLoop]
    rw [if_pos (by omega : 0 + 5 ≤ lines.length)]
    simp only
    rw [if_neg (by rw [hw0]; omega)]
    rw [show lines.length = 10 + seps.length from hn] at hfind ⊢
    rw [show (0 : Nat) + 5 = 5 from rfl, hfind]
  rw [hstep]
  set st1 : ScoreState :=
    ⟨st.stinkLevel + 15, st.issues ++ [dupMsg 0 (5 + seps.length)]⟩ with hst1
  constructor
  · have hmem : window lines 0 ∈
        (outerLoop lines 1 lines.length st1 (insertDup (window lines 0) [])).2 :=
      outerLoop_mem_dups lines lines.length 1 st1 _ _
        (insertDup_self (window lines 0) [])
    rcases hres : (outerLoop lines 1 lines.length st1
        (insertDup (window lines 0) [])).2 with _ | ⟨a, l⟩
    · rw [hres] at hmem; simp at hmem
    · rfl
  · refine outerLoop_mem_issues lines lines.length 1 st1 _ _ ?_
    rw [hst1]
    exact List.mem_append_right _ (List.mem_singleton.mpr rfl)

/-- Witness for C2 at a concrete file: block of five `aaaaN` lines, one
`zz` separator, block repeated; ranges 1-5 and 7-11 are reported. -/
theorem checkDuplicateCode_roundTrip_witness :
    (checkDuplicateCode dupCode initState).1 = true ∧
    dupMsg 0 6 ∈ (checkDuplicateCode dupCode initState).2.issues :=
  checkDuplicateCode_roundTrip
    ["aaaa1", "aaaa2", "aaaa3", "aaaa4", "aaaa5"] ["zz"] dupCode initState
    (by decide) (by decide) (by decide) (by decide)
    (by
      intro j hj1 hj2
      have hj : j = 5 := by
        simp only [List.length_cons, List.length_nil] at hj2
        omega
      subst hj
      decide)

/-- C3: the claim says the file-level overall clean level is
`0.4 * fileDuplicateScore + 0.6 * average(functionCleanLevels)` (100 for
the average when there are no functions).  The no-duplicate instances hold
(100 for a clean file without functions, 70 for one function scoring 50),
but on `dupCode` the pipeline yields 88, not the 94 the formula gives from
the single-pass duplicate score 85: `analyzeFile` runs `checkDuplicateCode`
and then `getCleanLevel` (which runs it again), doubling the duplicate
penalty before aggregation. -/
theorem analyzeFile_aggregation_eval :
    analyzeFileOverall cleanCode [] = 100 ∧
    analyzeFileOverall cleanCode [50] = 70 ∧
    analyzeFileOverall dupCode [] = 88 ∧
    (0.4 : ℚ) * fileDuplicateScore dupCode + (0.6 : ℚ) * 100 = 94 := by
  have h0 : checkDuplicateCode cleanCode ⟨0, []⟩ = (false, ⟨0, []⟩) := by
    decide
  have h1 : checkDuplicateCode dupCode ⟨0, []⟩ =
      (true, ⟨15, [dupMsg 0 6]⟩) := by decide
  have h2 : checkDuplicateCode dupCode (⟨15, [dupMsg 0 6]⟩ : ScoreState) =
      (true, ⟨30, [dupMsg 0 6, dupMsg 0 6]⟩) := by decide
  refine ⟨?_, ?_, ?_, ?_⟩ <;>
    simp [analyzeFileOverall, fileDuplicateScore, fileGetCleanLevel, initState,
      h0, h1, h2, cleanScore, avgFunctionCleanLevel] <;> norm_num

/-- C4: every `getCleanLevel` — file, function (under any behaviour of the
recalculation pass), and variable — returns a value in `[0, 100]`,
whatever the accumulated state. -/
theorem getCleanLevel_bounded (code : String) (st₁ st₂ st₃ : ScoreState)
    (recalc : ScoreState → ScoreState) (name : String) (v : JsValue) :
    (0 ≤ (fileGetCleanLevel code st₁).1 ∧
      (fileGetCleanLevel code st₁).1 ≤ 100) ∧
    (0 ≤ (functionGetCleanLevel recalc st₂).1 ∧
      (functionGetCleanLevel recalc st₂).1 ≤ 100) ∧
    (0 ≤ (variableGetCleanLevel name v st₃).1 ∧
      (variableGetCleanLevel name v st₃).1 ≤ 100) :=
  ⟨⟨cleanScore_nonneg _, cleanScore_le_100 _⟩,
   ⟨cleanScore_nonneg _, cleanScore_le_100 _⟩,
   ⟨cleanScore_nonneg _, cleanScore_le_100 _⟩⟩

/-- C5: on the signature `f(a, b, c, d)` (4 parameters, threshold 3) the
parameter-count check adds exactly `(4-3)*5` and one issue; on `f()` it
adds nothing. -/
theorem checkNumberOfParameters_examples (name : String) (st : ScoreState) :
    checkNumberOfParameters name "f(a, b, c, d)" st =
      ⟨st.stinkLevel + (4 - 3) * 5, st.issues ++ [paramMsg name 4]⟩ ∧
    checkNumberOfParameters name "f()" st = st :=
  ⟨rfl, rfl⟩

/-- C6: on any function text with no `(` followed by a later `)` the
parameter-count check is a total no-op: no penalty, no issue. -/
theorem checkNumberOfParameters_noop_no_parens (name s : String)
    (st : ScoreState)
    (h : ∀ c ∈ s.data.dropWhile (fun c => c ≠ '('), c ≠ ')') :
    checkNumberOfParameters name s st = st := by
  have hnone : firstParenGroup s = none := by
    unfold firstParenGroup
    cases hd : s.data.dropWhile (fun c => c ≠ '(') with
    | nil => rfl
    | cons c rest =>
      have hany : rest.any (fun c => c = ')') = false := by
        rw [List.any_eq_false]
        intro x hx
        have hmem : x ∈ s.data.dropWhile (fun c => c ≠ '(') := by
          rw [hd]; exact List.mem_cons_of_mem _ hx
        simpa using h x hmem
      simp [hany]
  unfold checkNumberOfParameters
  rw [hnone]

/-- Witness for C6: a getter-like fragment with no parenthesis pair. -/
theorem checkNumberOfParameters_noop_no_parens_witness :
    checkNumberOfParameters "g" "get x;" initState = initState :=
  checkNumberOfParameters_noop_no_parens "g" "get x;" initState (by decide)

/-- C7 counterexample: the claim says the unencapsulated-condition check
fires whenever a guard combines `&&` and `||` irrespective of their order.
The guard of `if (a || b && c)` combines both operators, yet the check
leaves the state untouched, because the source regex
`/if\s*\(\s*.+&&.+\|\|.+.+\)/` demands the `&&` before the `||`. -/
theorem conditionEncapsulation_order_counterexample :
    specGuardCombinesBoth "if (a || b && c)" = true ∧
    checkConditionEncapsulation "g" "if (a || b && c)" initState =
      initState :=
  ⟨rfl, rfl⟩

/-- C7 (amended): the check can fire only when the text contains a `&&`
followed — at least three characters later, as the regex demands — by a
`||`; a guard in which the disjunction precedes the conjunction (with no
later `||`) is never flagged. -/
theorem conditionEncapsulation_needs_and_before_or (name s : String)
    (st : ScoreState)
    (h : checkConditionEncapsulation name s st ≠ st) :
    ∃ i j, i + 3 ≤ j ∧ ['&', '&'] <+: s.data.drop i ∧
      ['|', '|'] <+: s.data.drop j := by
  have hn : 0 < countMatches s := by
    by_contra hc
    apply h
    unfold checkConditionEncapsulation
    rw [if_neg (by omega)]
  obtain ⟨p, len, hm⟩ := countMatchesAux_sound _ _ hn
  obtain ⟨i, j, hij, h1, h2⟩ := matchHere_sound hm
  rw [List.drop_drop] at h1 h2
  exact ⟨p + i, p + j, by omega, h1, h2⟩

/-- Witness for the amended C7: `if (a && b || c)` fires the check (so the
hypothesis holds) and indeed contains `&&` before `||`. -/
theorem conditionEncapsulation_needs_and_before_or_witness :
    ∃ i j, i + 3 ≤ j ∧
      ['&', '&'] <+: ("if (a && b || c)").data.drop i ∧
      ['|', '|'] <+: ("if (a && b || c)").data.drop j :=
  conditionEncapsulation_needs_and_before_or "g" "if (a && b || c)"
    initState (by decide)

/-- C8: a variable named `isActive` bound to the number 1 gets the
15-point type-mismatch deduction and the issue naming expected type
boolean and actual type number; bound to the boolean `true` it gets
neither. -/
theorem checkTypeConsistency_isActive_examples (st : ScoreState) :
    checkTypeConsistency "isActive" (.vnum 1) st =
      (false, ⟨st.stinkLevel + 15,
        st.issues ++ [mismatchMsg "isActive" "boolean" "number"]⟩) ∧
    checkTypeConsistency "isActive" (.vbool true) st = (true, st) :=
  ⟨rfl, rfl⟩

/-- C9: every variable produced by `extractVariables` carries a string
value — the initializer's source text, or `""` without initializer — so
`checkTypeConsistency` always computes actual type string for it; in
particular an extracted `isActive` is flagged whatever its initializer
text, even `"true"`. -/
theorem extractedVariable_actual_type_string (t : String)
    (initializerText : Option String) (st : ScoreState) :
    extractedValue (some t) = JsValue.vstr t ∧
    extractedValue none = JsValue.vstr "" ∧
    actualTypeOf (extractedValue initializerText) = "string" ∧
    (checkTypeConsistency "isActive"
      (extractedValue initializerText) st).2.stinkLevel =
      st.stinkLevel + 15 :=
  ⟨rfl, rfl, rfl, rfl⟩

/-- C10: one `checkTypeConsistency` call adds at most one 15-point
deduction and at most one issue: the scan returns at the first marker
whose implied type differs from the actual type. -/
theorem checkTypeConsistency_at_most_one_penalty (name : String)
    (v : JsValue) (st : ScoreState) :
    (checkTypeConsistency name v st).2 = st ∨
    ∃ expected, (checkTypeConsistency name v st).2 =
      ⟨st.stinkLevel + 15,
        st.issues ++ [mismatchMsg name expected (actualTypeOf v)]⟩ :=
  typeLoop_cases name (actualTypeOf v) typeMarkers st

end Stink
